import Mathlib

/-!
Verification of the sample translator program (`src/input_examples/sample.cpp`).

The program is embedded shallowly:

* C `int` values are modelled as `Int`, with every arithmetic result reduced
  into the 32-bit two's-complement range by `toInt32` (wrap-around semantics;
  the spec declares overflow behaviour platform-defined, and wrap-around is
  the concrete platform behaviour we fix for the model).
* The observable behaviour of `main` is an explicit list of events: chunks
  written to standard output (distinguishing the `string` and `int` overloads
  of `operator<<` and `endl`), the single integer read from standard input,
  and every write/read of the local array `arr`.
* The array `arr` is declared uninitialized, so its slots are `Option Int`
  (`none` = indeterminate).  Reading an indeterminate or out-of-bounds slot
  is undefined behaviour, modelled by `main` returning `none`.
-/

namespace Sample

/-- Reduce an integer into the 32-bit two's-complement range
`[-2^31, 2^31)`, as wrap-around overflow of a C `int` does. -/
def toInt32 (n : Int) : Int :=
  (n + 2 ^ 31) % 2 ^ 32 - 2 ^ 31

/-- `int square(int x) { return x * x; }` — the multiplication is performed
in `int`, so the mathematical product is wrapped by `toInt32`. -/
def square (x : Int) : Int :=
  toInt32 (x * x)

/-- One observable event of the program:
an output chunk (string overload of `operator<<`), an output of an `int`
(int overload), an `endl`, the read of `b` from standard input, or a
write/read of a slot of the array `arr`. -/
inductive Ev : Type
  | outStr (s : String)
  | outInt (v : Int)
  | outEndl
  | readInt (v : Int)
  | awrite (i : Nat) (v : Int)
  | aread (i : Nat) (v : Int)
deriving DecidableEq

/-- The text an event contributes to standard output, if any. -/
def evOut : Ev → Option String
  | Ev.outStr s => some s
  | Ev.outInt v => some (toString v)
  | Ev.outEndl => some "\n"
  | _ => none

/-- The chunks written to standard output, in order. -/
def stdoutChunks (evs : List Ev) : List String :=
  evs.filterMap evOut

/-- `for (int i = 0; i < 3; i++) { arr[i] = square(i + b); }`.
Returns the array after the loop together with the array-write events. -/
def fillLoop (b : Int) (i : Nat) (arr : List (Option Int)) :
    List (Option Int) × List Ev :=
  if i < 3 then
    let v := square (toInt32 ((i : Int) + b))
    let rest := fillLoop b (i + 1) (arr.set i (some v))
    (rest.1, Ev.awrite i v :: rest.2)
  else (arr, [])
termination_by 3 - i

/-- `while (a < 10) { cout << msg << " " << a << endl; a++; }`.
Returns the final value of `a` together with the output events. -/
def whileLoop (msg : String) (a : Int) : Int × List Ev :=
  if a < 10 then
    let rest := whileLoop msg (a + 1)
    (rest.1, Ev.outStr msg :: Ev.outStr " " :: Ev.outInt a :: Ev.outEndl :: rest.2)
  else (a, [])
termination_by (10 - a).toNat
decreasing_by omega

/-- `for (int i = 0; i < 3; i++) { cout << arr[i] << " "; }`.
Reading an out-of-bounds or indeterminate slot is undefined behaviour,
modelled by `none`. -/
def printLoop (arr : List (Option Int)) (i : Nat) : Option (List Ev) :=
  if i < 3 then
    match (arr.get? i).bind id with
    | some v =>
      match printLoop arr (i + 1) with
      | some rest => some (Ev.aread i v :: Ev.outInt v :: Ev.outStr " " :: rest)
      | none => none
    | none => none
  else some []
termination_by 3 - i

/-- The state of `main` at program exit. -/
structure Result : Type where
  finalA : Int
  finalArr : List (Option Int)
  events : List Ev
  exitCode : Int
deriving DecidableEq

/-- The whole `main` function: `none` on undefined behaviour, otherwise the
final values of `a` and `arr`, the full event trace, and the exit code. -/
def main (b : Int) : Option Result :=
  let a : Int := 5
  let arr0 : List (Option Int) := [none, none, none]
  let msg : String := "Hello"
  let promptEvs : List Ev := [Ev.outStr "Enter a number: ", Ev.readInt b]
  let fl := fillLoop b 0 arr0
  let wl := whileLoop msg a
  let condEvs : List Ev :=
    if b > 10 then [Ev.outStr "Big number!", Ev.outEndl]
    else [Ev.outStr "Small number!", Ev.outEndl]
  match printLoop fl.1 0 with
  | some prEvs =>
    some { finalA := wl.1
           finalArr := fl.1
           events := promptEvs ++ fl.2 ++ wl.2 ++ condEvs
             ++ (Ev.outStr "Array values: " :: prEvs) ++ [Ev.outEndl]
           exitCode := 0 }
  | none => none

/-! ### Arithmetic facts about the 32-bit model -/

lemma toInt32_eq_of_emod (m n : Int) (h : m % 2 ^ 32 = n % 2 ^ 32) :
    toInt32 m = toInt32 n := by
  unfold toInt32
  omega

lemma toInt32_emod (n : Int) : toInt32 n % 2 ^ 32 = n % 2 ^ 32 := by
  unfold toInt32
  omega

lemma square_toInt32 (x : Int) : square (toInt32 x) = square x := by
  unfold square
  refine toInt32_eq_of_emod _ _ ?_
  have h : Int.ModEq (2 ^ 32) (toInt32 x) x := toInt32_emod x
  exact Int.ModEq.mul h h

lemma toInt32_of_representable (n : Int) (h1 : -(2 ^ 31) ≤ n) (h2 : n < 2 ^ 31) :
    toInt32 n = n := by
  unfold toInt32
  omega

/-! ### Closed forms for the loops and for `main` -/

lemma fillLoop_eval (b : Int) :
    fillLoop b 0 [none, none, none] =
      ([some (square b), some (square (1 + b)), some (square (2 + b))],
        [Ev.awrite 0 (square b), Ev.awrite 1 (square (1 + b)),
          Ev.awrite 2 (square (2 + b))]) := by
  simp [fillLoop, square_toInt32]

lemma whileLoop_eval :
    whileLoop "Hello" 5 =
      (10,
        [Ev.outStr "Hello", Ev.outStr " ", Ev.outInt 5, Ev.outEndl,
         Ev.outStr "Hello", Ev.outStr " ", Ev.outInt 6, Ev.outEndl,
         Ev.outStr "Hello", Ev.outStr " ", Ev.outInt 7, Ev.outEndl,
         Ev.outStr "Hello", Ev.outStr " ", Ev.outInt 8, Ev.outEndl,
         Ev.outStr "Hello", Ev.outStr " ", Ev.outInt 9, Ev.outEndl]) := by
  simp [whileLoop]

lemma printLoop_eval (v0 v1 v2 : Int) :
    printLoop [some v0, some v1, some v2] 0 =
      some [Ev.aread 0 v0, Ev.outInt v0, Ev.outStr " ",
            Ev.aread 1 v1, Ev.outInt v1, Ev.outStr " ",
            Ev.aread 2 v2, Ev.outInt v2, Ev.outStr " "] := by
  simp [printLoop]

/-- The record `main` returns for an input `b`. -/
def mainResult (b : Int) : Result where
  finalA := 10
  finalArr := [some (square b), some (square (1 + b)), some (square (2 + b))]
  events :=
    [Ev.outStr "Enter a number: ", Ev.readInt b,
     Ev.awrite 0 (square b), Ev.awrite 1 (square (1 + b)),
     Ev.awrite 2 (square (2 + b)),
     Ev.outStr "Hello", Ev.outStr " ", Ev.outInt 5, Ev.outEndl,
     Ev.outStr "Hello", Ev.outStr " ", Ev.outInt 6, Ev.outEndl,
     Ev.outStr "Hello", Ev.outStr " ", Ev.outInt 7, Ev.outEndl,
     Ev.outStr "Hello", Ev.outStr " ", Ev.outInt 8, Ev.outEndl,
     Ev.outStr "Hello", Ev.outStr " ", Ev.outInt 9, Ev.outEndl]
    ++ (if b > 10 then [Ev.outStr "Big number!", Ev.outEndl]
        else [Ev.outStr "Small number!", Ev.outEndl])
    ++ [Ev.outStr "Array values: ",
        Ev.aread 0 (square b), Ev.outInt (square b), Ev.outStr " ",
        Ev.aread 1 (square (1 + b)), Ev.outInt (square (1 + b)), Ev.outStr " ",
        Ev.aread 2 (square (2 + b)), Ev.outInt (square (2 + b)), Ev.outStr " ",
        Ev.outEndl]
  exitCode := 0

lemma main_eq (b : Int) : main b = some (mainResult b) := by
  simp [main, mainResult, fillLoop_eval, whileLoop_eval, printLoop_eval]

/-- The fill loop never resizes the array: `List.set` preserves length. -/
lemma fillLoop_length (b : Int) (i : Nat) (arr0 : List (Option Int)) :
    ((fillLoop b i arr0).1).length = arr0.length := by
  unfold fillLoop
  split
  · simpa using fillLoop_length b (i + 1)
      (arr0.set i (some (square (toInt32 ((i : Int) + b)))))
  · rfl
termination_by 3 - i

/-- The integer read from standard input by an event, if any. -/
def readOf : Ev → Option Int
  | Ev.readInt v => some v
  | _ => none

/-- Keep only the events that access the array `arr`. -/
def arrAccess : Ev → Option Ev
  | Ev.awrite i v => some (Ev.awrite i v)
  | Ev.aread i v => some (Ev.aread i v)
  | _ => none

/-! ### The claims -/

/-- C1: after the fill loop, `arr` has `square (i + b)` at every index
`i = 0, 1, 2`; in particular the final array is `[0, 1, 4]` for input `b = 0`
and `[9, 16, 25]` for input `b = 3`. -/
theorem c1_fill_squares (b : Int) :
    (∃ r, main b = some r ∧ ∀ i : Nat, i < 3 →
        r.finalArr.get? i = some (some (square ((i : Int) + b))))
    ∧ (∃ r, main 0 = some r ∧ r.finalArr = [some 0, some 1, some 4])
    ∧ (∃ r, main 3 = some r ∧ r.finalArr = [some 9, some 16, some 25]) := by
  refine ⟨⟨_, main_eq b, ?_⟩, ⟨_, main_eq 0, ?_⟩, ⟨_, main_eq 3, ?_⟩⟩
  · intro i hi
    interval_cases i <;> simp [mainResult]
  · simp only [mainResult]
    norm_num [square, toInt32]
  · simp only [mainResult]
    norm_num [square, toInt32]

/-- C1 witness: at input `b = 3` and index `i = 2` the stored value is
`square (2 + 3) = 25`. -/
theorem c1_fill_squares_witness :
    ∃ r, main 3 = some r ∧ r.finalArr.get? 2 = some (some 25) := by
  obtain ⟨⟨r, hr, h⟩, -, -⟩ := c1_fill_squares 3
  refine ⟨r, hr, ?_⟩
  have h2 := h 2 (by decide)
  rw [h2]
  norm_num [square, toInt32]

/-- C2: the threshold branch prints "Big number!" exactly when `b > 10` and
"Small number!" otherwise, never both; the comparison is strict, so `b = 10`
prints "Small number!". -/
theorem c2_threshold (b : Int) :
    (∃ r, main b = some r ∧
      (b > 10 → Ev.outStr "Big number!" ∈ r.events ∧
        Ev.outStr "Small number!" ∉ r.events) ∧
      (¬ b > 10 → Ev.outStr "Small number!" ∈ r.events ∧
        Ev.outStr "Big number!" ∉ r.events))
    ∧ (∃ r, main 10 = some r ∧ Ev.outStr "Small number!" ∈ r.events ∧
        Ev.outStr "Big number!" ∉ r.events) := by
  refine ⟨⟨_, main_eq b, ?_, ?_⟩, ⟨_, main_eq 10, ?_⟩⟩
  · intro h
    simp [mainResult, h]
  · intro h
    simp [mainResult, h]
  · simp [mainResult]

/-- C2 witness: input `b = 11` prints "Big number!" and not "Small number!". -/
theorem c2_threshold_witness :
    ∃ r, main 11 = some r ∧ Ev.outStr "Big number!" ∈ r.events ∧
      Ev.outStr "Small number!" ∉ r.events := by
  obtain ⟨⟨r, hr, hbig, -⟩, -⟩ := c2_threshold 11
  exact ⟨r, hr, hbig (by decide)⟩

set_option maxHeartbeats 1600000 in
/-- C3: the while loop starting at `a = 5` runs exactly 5 iterations,
finishing with `a = 10` and emitting exactly the "Hello a" lines for
`a = 5, 6, 7, 8, 9`; this block appears in the output of `main` and the
chunk "Hello" is printed exactly 5 times, for every input `b`. -/
theorem c3_while_loop (b : Int) :
    whileLoop "Hello" 5 =
      (10,
        [Ev.outStr "Hello", Ev.outStr " ", Ev.outInt 5, Ev.outEndl,
         Ev.outStr "Hello", Ev.outStr " ", Ev.outInt 6, Ev.outEndl,
         Ev.outStr "Hello", Ev.outStr " ", Ev.outInt 7, Ev.outEndl,
         Ev.outStr "Hello", Ev.outStr " ", Ev.outInt 8, Ev.outEndl,
         Ev.outStr "Hello", Ev.outStr " ", Ev.outInt 9, Ev.outEndl])
    ∧ ∃ r, main b = some r ∧
        (∃ pre post, r.events = pre ++
          [Ev.outStr "Hello", Ev.outStr " ", Ev.outInt 5, Ev.outEndl,
           Ev.outStr "Hello", Ev.outStr " ", Ev.outInt 6, Ev.outEndl,
           Ev.outStr "Hello", Ev.outStr " ", Ev.outInt 7, Ev.outEndl,
           Ev.outStr "Hello", Ev.outStr " ", Ev.outInt 8, Ev.outEndl,
           Ev.outStr "Hello", Ev.outStr " ", Ev.outInt 9, Ev.outEndl] ++ post)
        ∧ r.events.count (Ev.outStr "Hello") = 5 := by
  refine ⟨whileLoop_eval, ⟨_, main_eq b, ?_, ?_⟩⟩
  · refine ⟨[Ev.outStr "Enter a number: ", Ev.readInt b,
      Ev.awrite 0 (square b), Ev.awrite 1 (square (1 + b)),
      Ev.awrite 2 (square (2 + b))],
      (if b > 10 then [Ev.outStr "Big number!", Ev.outEndl]
        else [Ev.outStr "Small number!", Ev.outEndl])
      ++ [Ev.outStr "Array values: ",
          Ev.aread 0 (square b), Ev.outInt (square b), Ev.outStr " ",
          Ev.aread 1 (square (1 + b)), Ev.outInt (square (1 + b)), Ev.outStr " ",
          Ev.aread 2 (square (2 + b)), Ev.outInt (square (2 + b)), Ev.outStr " ",
          Ev.outEndl], ?_⟩
    simp [mainResult]
  · by_cases h : b > 10 <;>
      simp [mainResult, h, List.count_cons, List.count_append]

/-- C4: `square` computes the mathematical product `x * x` whenever that
product is representable as a 32-bit `int`; outside that range the wrap-around
model applies and nothing is claimed.  Purity and determinism hold by
construction: `square` is a function of its argument alone. -/
theorem c4_square (x : Int) (h1 : -(2 ^ 31) ≤ x * x) (h2 : x * x < 2 ^ 31) :
    square x = x * x := by
  unfold square
  exact toInt32_of_representable _ h1 h2

/-- C4 witness: `square 12345 = 12345 * 12345`. -/
theorem c4_square_witness : square 12345 = 12345 * 12345 :=
  c4_square 12345 (by decide) (by decide)

/-- C5: the standard-output chunks appear in exactly this order: the prompt
(immediately followed by the read, with no newline in between), the five
"Hello a" lines for `a = 5..9`, the threshold line, and the final
"Array values: " line. -/
theorem c5_output_order (b : Int) :
    ∃ r, main b = some r ∧
      (∃ rest, r.events = Ev.outStr "Enter a number: " :: Ev.readInt b :: rest)
      ∧ stdoutChunks r.events =
          ["Enter a number: "]
          ++ ["Hello", " ", "5", "\n", "Hello", " ", "6", "\n",
              "Hello", " ", "7", "\n", "Hello", " ", "8", "\n",
              "Hello", " ", "9", "\n"]
          ++ [if b > 10 then "Big number!" else "Small number!", "\n"]
          ++ ["Array values: ", toString (square b), " ",
              toString (square (1 + b)), " ", toString (square (2 + b)), " ",
              "\n"] := by
  refine ⟨_, main_eq b, ⟨_, rfl⟩, ?_⟩
  by_cases h : b > 10 <;> simp [mainResult, stdoutChunks, evOut, h] <;> decide

/-- C6: the final output line is the label "Array values: " followed by the
3 array elements in index order, each followed by one space (so there is a
trailing space), then a newline; the preceding chunk ends a line. -/
theorem c6_final_line (b : Int) :
    ∃ r, main b = some r ∧
      ∃ pre, stdoutChunks r.events =
          pre ++ ["Array values: ", toString (square b), " ",
            toString (square (1 + b)), " ", toString (square (2 + b)), " ",
            "\n"]
        ∧ pre.getLast? = some "\n" := by
  refine ⟨_, main_eq b, ?_⟩
  refine ⟨["Enter a number: "]
    ++ ["Hello", " ", "5", "\n", "Hello", " ", "6", "\n",
        "Hello", " ", "7", "\n", "Hello", " ", "8", "\n",
        "Hello", " ", "9", "\n"]
    ++ [if b > 10 then "Big number!" else "Small number!", "\n"], ?_, ?_⟩
  · by_cases h : b > 10 <;> simp [mainResult, stdoutChunks, evOut, h] <;> decide
  · by_cases h : b > 10 <;> simp [h]

/-- C7: `main` always terminates normally (no undefined behaviour is hit, no
other exit path exists) and its exit code is 0. -/
theorem c7_exit_code (b : Int) :
    ∃ r, main b = some r ∧ r.exitCode = 0 :=
  ⟨_, main_eq b, rfl⟩

/-- C8: the array keeps length 3 throughout (the fill loop preserves the
length of any array it is given, and the final array has length 3), and the
array accesses of the whole run are exactly: one write to each of the indices
0, 1, 2 (each in bounds), followed by one read of each of the indices
0, 1, 2, returning the written values. -/
theorem c8_array_safety (b : Int) :
    (∀ i : Nat, ∀ arr0 : List (Option Int),
      ((fillLoop b i arr0).1).length = arr0.length)
    ∧ ∃ r, main b = some r ∧
        r.finalArr.length = 3
        ∧ r.events.filterMap arrAccess =
            [Ev.awrite 0 (square b), Ev.awrite 1 (square (1 + b)),
             Ev.awrite 2 (square (2 + b)),
             Ev.aread 0 (square b), Ev.aread 1 (square (1 + b)),
             Ev.aread 2 (square (2 + b))] := by
  refine ⟨fillLoop_length b, ⟨_, main_eq b, by simp [mainResult], ?_⟩⟩
  by_cases h : b > 10 <;> simp [mainResult, arrAccess, h]

/-- C9: the run is deterministic — for a fixed input `b` the result (and in
particular the whole event trace) is unique — and the only input effect is
the single read of `b` from standard input. -/
theorem c9_deterministic (b : Int) :
    (∀ r₁ r₂, main b = some r₁ → main b = some r₂ → r₁ = r₂)
    ∧ ∃ r, main b = some r ∧ r.events.filterMap readOf = [b] := by
  constructor
  · intro r₁ r₂ h₁ h₂
    rw [h₁] at h₂
    exact Option.some.inj h₂
  · refine ⟨_, main_eq b, ?_⟩
    by_cases h : b > 10 <;> simp [mainResult, readOf, h]

/-- C9 witness: the two-run property instantiated at input `b = 7`. -/
theorem c9_deterministic_witness : mainResult 7 = mainResult 7 :=
  (c9_deterministic 7).1 (mainResult 7) (mainResult 7) (main_eq 7) (main_eq 7)

/-- C10: when the while loop terminates the counter `a` equals 10, and it is
never modified afterwards: the value of `a` at program exit is still 10, for
every input `b`. -/
theorem c10_counter_final (b : Int) :
    (whileLoop "Hello" 5).1 = 10 ∧ ∃ r, main b = some r ∧ r.finalA = 10 :=
  ⟨by rw [whileLoop_eval], ⟨_, main_eq b, rfl⟩⟩

end Sample
